import Mathlib

/-!
Shallow embedding of the matcher in src/pubchem_matcher.py
(function match_pubchem_data): a streaming MSP-record annotator that

* builds a lookup over a reference CSV via pandas set_index("FirstBlock"),
* segments a line-oriented input into blank-line-terminated blocks,
  extracting InChIKey / SMILES header values as it goes,
* matches each block to a reference row by InChIKey first (exact index
  lookup), then by SMILES (first row in dataset order),
* inserts PubMed_Count / Patent_Count lines before the first line whose
  lower-cased form starts with "num peaks",
* accumulates run statistics and prints a report at the end.

Python string operations are embedded explicitly on character lists so that
their semantics (str.strip whitespace set, str.lower, str.startswith,
str.split with maxsplit 1) match CPython on the ASCII data in scope.
Machine integers do not arise: Python integers are unbounded, so counts are
naturals. Fallible steps (pandas KeyError, ZeroDivisionError) are embedded
in the Except monad.
-/

namespace PubChem

/-- Python whitespace for str.strip (the ASCII part of the set CPython
strips: space, tab, newline, carriage return, vertical tab, form feed). -/
def pySpace (c : Char) : Bool :=
  c = ' ' || c = '\t' || c = '\n' || c = '\r' || c = '\x0b' || c = '\x0c'

/-- ASCII case folding, modelling Python str.lower on the ASCII data in
scope (identifier headers and the "num peaks" anchor are ASCII). -/
def lowerChar (c : Char) : Char :=
  if 'A' ≤ c && c ≤ 'Z' then Char.ofNat (c.toNat + 32) else c

/-- Boolean list-prefix test, used to embed Python str.startswith. -/
def isPre : List Char → List Char → Bool
  | [], _ => true
  | _ :: _, [] => false
  | a :: as, b :: bs => a = b && isPre as bs

/-- Python s.startswith(p). -/
def pyStartswith (s p : String) : Bool := isPre p.data s.data

/-- Python s.lower(). -/
def pyLower (s : String) : String := ⟨s.data.map lowerChar⟩

/-- Drop the trailing run of Python whitespace from a character list. -/
def rtrimChars : List Char → List Char
  | [] => []
  | c :: cs => if (rtrimChars cs).isEmpty && pySpace c then [] else c :: rtrimChars cs

/-- Python s.strip(): drop leading and trailing whitespace. -/
def pyStrip (s : String) : String := ⟨(rtrimChars s.data).dropWhile pySpace⟩

/-- Python line.split(":", 1)[1]: the text after the first colon. Callers
in the source only evaluate this under a startswith guard whose pattern
contains a colon, so a colon is always present there. -/
def afterFirstColon (s : String) : String :=
  ⟨(s.data.dropWhile (fun c => c != ':')).drop 1⟩

/-- One row of the reference CSV (PubChemLite): the primary identifier
column FirstBlock, the SMILES column, and the two count columns. Python
integers are unbounded, and the counts are only compared, formatted and
collected, so naturals model them exactly. -/
structure Row where
  firstBlock : String
  smiles : String
  pubMedCount : Nat
  patentCount : Nat
  deriving DecidableEq, Repr

/-- The reference dataset as loaded by pd.read_csv: the list of column
names actually present in the file, and the row data. Field accesses in
the source raise KeyError when the named column is absent; the cols list
lets the embedding reproduce that. -/
structure PubChemTable where
  cols : List String
  rows : List Row
  deriving DecidableEq, Repr

/-- pubchem_df.loc[key] after set_index("FirstBlock"): every row whose
primary identifier equals the key, in dataset order. pandas set_index
keeps duplicate keys, so this is a one-row result only when the key is
unique in the dataset. -/
def lookup_primary (t : PubChemTable) (key : String) : List Row :=
  t.rows.filter (fun r => r.firstBlock = key)

/-- pubchem_df[pubchem_df["SMILES"] == v] followed by .iloc[0]: the first
row in dataset order whose SMILES equals v, if any. -/
def scan_secondary (t : PubChemTable) (v : String) : Option Row :=
  (t.rows.filter (fun r => r.smiles = v)).head?

/-- The stats dictionary of match_pubchem_data (lines 13-24). The two
distribution sequences hold, per matched record, the value list of the
looked-up count field: a singleton for the scalar the source appends when
the key is unique, the full value list when a duplicated primary key makes
pandas loc return a multi-row frame. -/
structure Stats where
  total_spectra : Nat
  matched_by_inchikey : Nat
  matched_by_smiles : Nat
  total_matched : Nat
  spectra_with_inchikey : Nat
  spectra_with_smiles : Nat
  spectra_with_both : Nat
  spectra_with_neither : Nat
  pubmed_counts : List (List Nat)
  patent_counts : List (List Nat)
  deriving DecidableEq, Repr

def zeroStats : Stats := ⟨0, 0, 0, 0, 0, 0, 0, 0, [], []⟩

/-- Python exceptions the source can raise on the modelled paths. -/
inductive PyErr where
  | keyError (k : String)
  | zeroDivisionError
  deriving DecidableEq, Repr

/-- Value of an optional Python string variable, None collapsing to the
empty string only where guarded by truthiness in the source. -/
def sval : Option String → String
  | Option.none => ""
  | Option.some s => s

/-- Python truthiness of the identifier variables: None and "" are falsy. -/
def truthy (o : Option String) : Bool := !(sval o).isEmpty

/-- The per-line loop state of match_pubchem_data: the block being
collected, the two identifier variables, the stats dictionary and the
lines written to the output file so far. -/
structure LoopState where
  block : List String
  inchi : Option String
  smiles : Option String
  stats : Stats
  out : List String
  deriving DecidableEq, Repr

/-- Lines 35-38: the identifier-header checks, run on the raw line after
it was appended to the block. Exact, case-sensitive prefixes; the value is
the text after the first colon, stripped. -/
def applyHeader (st : LoopState) (line : String) : LoopState :=
  if pyStartswith line "Inchikey:" || pyStartswith line "InChIKey:" then
    { st with inchi := some (pyStrip (afterFirstColon line)) }
  else if pyStartswith line "Smiles:" then
    { st with smiles := some (pyStrip (afterFirstColon line)) }
  else st

/-- The match method of a record (spec section 4.3 MatchResult): primary is
the InChIKey index hit, secondary the SMILES scan hit. -/
inductive Method where
  | primary
  | secondary
  | unmatched
  deriving DecidableEq, Repr

/-- Lines 57-66: resolve the identifier variables of a finished block to a
reference row. Primary: truthy InChIKey present in the index, the loc
result (all rows with that key). Secondary: truthy SMILES, first row whose
SMILES column matches; accessing the SMILES column raises KeyError when it
is absent from the CSV. -/
def matchRecord (t : PubChemTable) (inchi smilesV : Option String) :
    Except PyErr (Option (List Row) × Method) :=
  if truthy inchi && !(lookup_primary t (sval inchi)).isEmpty then
    Except.ok (some (lookup_primary t (sval inchi)), Method.primary)
  else if truthy smilesV then
    if t.cols.contains "SMILES" then
      match scan_secondary t (sval smilesV) with
      | some r => Except.ok (some [r], Method.secondary)
      | Option.none => Except.ok (none, Method.unmatched)
    else Except.error (PyErr.keyError "SMILES")
  else Except.ok (none, Method.unmatched)

/-- Lines 47-54: the identifier-presence buckets, both-present checked
first. -/
def bumpBuckets (s : Stats) (hasI hasS : Bool) : Stats :=
  if hasI && hasS then { s with spectra_with_both := s.spectra_with_both + 1 }
  else if hasI then { s with spectra_with_inchikey := s.spectra_with_inchikey + 1 }
  else if hasS then { s with spectra_with_smiles := s.spectra_with_smiles + 1 }
  else { s with spectra_with_neither := s.spectra_with_neither + 1 }

/-- Field access pubchem_row[c] on the matched loc result: KeyError when
the column c is absent from the CSV, else the value list of that column
over the matched rows (a singleton when the match is a single row). -/
def getCol (t : PubChemTable) (c : String) (vals : List Nat) : Except PyErr (List Nat) :=
  if t.cols.contains c then Except.ok vals else Except.error (PyErr.keyError c)

/-- Rendering of the looked-up count field inside the annotation f-string.
A single-row match is a pandas scalar and renders as its decimal numeral.
A multi-row match (duplicated primary key) renders a pandas Series; its
exact multi-line text is irrelevant to every property proved here and is
modelled as the newline-joined value list. -/
def countRepr : List Nat → String
  | [n] => toString n
  | ns => String.intercalate "\n" (ns.map toString)

/-- Line 74: the anchor test the source applies to each block line. -/
def codeAnchor (l : String) : Bool := pyStartswith (pyLower l) "num peaks"

/-- The anchor notion the spec describes (section 4.4): the trimmed,
case-folded line starts with "num peaks". Used to state the claims. -/
def specAnchor (l : String) : Bool := pyStartswith (pyLower (pyStrip l)) "num peaks"

/-- Lines 73-83: insert the two annotation lines immediately before the
first anchor line, then stop (the break). No anchor, no change. -/
def insertCounts (pm pat : String) : List String → List String
  | [] => []
  | l :: ls =>
    if codeAnchor l then pm :: pat :: l :: ls else l :: insertCounts pm pat ls

def pmLine (ns : List Nat) : String := "PubMed_Count: " ++ countRepr ns ++ "\n"

def patLine (ns : List Nat) : String := "Patent_Count: " ++ countRepr ns ++ "\n"

/-- Lines 40-88, the body run when the current line is blank: count the
record, bucket its identifier presence, match it, on a match append the
counts to the distributions and annotate the block, write the block and
reset the per-record state. -/
def recordFlush (t : PubChemTable) (st : LoopState) : Except PyErr LoopState :=
  let s1 := { st.stats with total_spectra := st.stats.total_spectra + 1 }
  let s2 := bumpBuckets s1 (truthy st.inchi) (truthy st.smiles)
  match matchRecord t st.inchi st.smiles with
  | Except.error e => Except.error e
  | Except.ok (rowOpt, m) =>
    let s3 :=
      match m with
      | Method.primary => { s2 with matched_by_inchikey := s2.matched_by_inchikey + 1 }
      | Method.secondary => { s2 with matched_by_smiles := s2.matched_by_smiles + 1 }
      | Method.unmatched => s2
    match rowOpt with
    | Option.none =>
      Except.ok { block := [], inchi := none, smiles := none, stats := s3,
                  out := st.out ++ st.block }
    | Option.some rows =>
      match getCol t "PubMed_Count" (rows.map (fun r => r.pubMedCount)) with
      | Except.error e => Except.error e
      | Except.ok pms =>
        match getCol t "Patent_Count" (rows.map (fun r => r.patentCount)) with
        | Except.error e => Except.error e
        | Except.ok pats =>
          let s4 := { s3 with total_matched := s3.total_matched + 1,
                              pubmed_counts := s3.pubmed_counts ++ [pms],
                              patent_counts := s3.patent_counts ++ [pats] }
          Except.ok { block := [], inchi := none, smiles := none, stats := s4,
                      out := st.out ++ insertCounts (pmLine pms) (patLine pats) st.block }

/-- Lines 33-88, one iteration of the for loop: append the line to the
block, run the header checks, and flush if the line strips to empty. -/
def stepLine (t : PubChemTable) (st : LoopState) (line : String) : Except PyErr LoopState :=
  let st1 := applyHeader { st with block := st.block ++ [line] } line
  if pyStrip line = "" then recordFlush t st1 else Except.ok st1

def initLoop : LoopState := ⟨[], none, none, zeroStats, []⟩

/-- Lines 8-88: load and index the reference table (set_index raises
KeyError when the FirstBlock column is absent, before the input is
opened), then fold the loop body over the input lines. The value is the
final stats together with the lines written to the output file; a block
still pending when the input ends is never written (the loop only writes
on a blank line). -/
def match_pubchem_data (t : PubChemTable) (lines : List String) :
    Except PyErr (Stats × List String) :=
  if t.cols.contains "FirstBlock" then
    match lines.foldlM (stepLine t) initLoop with
    | Except.error e => Except.error e
    | Except.ok fin => Except.ok (fin.stats, fin.out)
  else Except.error (PyErr.keyError "FirstBlock")

/-- Line 99 of the final report: the percent-matched figure
total_matched / total_spectra * 100, a Python true division that raises
ZeroDivisionError when no record was processed. The float value is
modelled exactly as a rational; the value is irrelevant to the claims,
the raising behaviour is the point. -/
def reportPct (s : Stats) : Except PyErr ℚ :=
  if s.total_spectra = 0 then Except.error PyErr.zeroDivisionError
  else Except.ok ((s.total_matched : ℚ) / (s.total_spectra : ℚ) * 100)

/-! ## Helper lemmas about the embedded Python string operations -/

lemma isPre_mem : ∀ (t s : List Char), isPre t s = true → ∀ x ∈ t, x ∈ s := by
  intro t
  induction t with
  | nil => intro s _ x hx; cases hx
  | cons a as ih =>
    intro s h x hx
    cases s with
    | nil => simp [isPre] at h
    | cons b bs =>
      simp only [isPre, Bool.and_eq_true, decide_eq_true_eq] at h
      obtain ⟨hab, hrest⟩ := h
      rcases List.mem_cons.mp hx with hx | hx
      · exact hx ▸ hab ▸ List.mem_cons_self b bs
      · exact List.mem_cons_of_mem b (ih bs hrest x hx)

lemma rtrim_nil : ∀ (l : List Char), rtrimChars l = [] → ∀ x ∈ l, pySpace x = true := by
  intro l
  induction l with
  | nil => intro _ x hx; cases hx
  | cons c cs ih =>
    intro h x hx
    unfold rtrimChars at h
    by_cases hc : ((rtrimChars cs).isEmpty && pySpace c) = true
    · obtain ⟨hemp, hsp⟩ := Bool.and_eq_true_iff.mp hc
      rcases List.mem_cons.mp hx with hx | hx
      · exact hx ▸ hsp
      · exact ih (List.isEmpty_iff.mp hemp) x hx
    · rw [if_neg hc] at h
      cases h

lemma pySpace_lowerChar (c : Char) (h : pySpace c = true) : pySpace (lowerChar c) = true := by
  simp only [pySpace, Bool.or_eq_true, decide_eq_true_eq] at h
  rcases h with ((((h | h) | h) | h) | h) | h <;> subst h <;> decide

lemma mono_rtrim : ∀ (cs t : List Char),
    (∀ x, t.getLast? = some x → pySpace x = false) →
    isPre t (cs.map lowerChar) = true →
    isPre t ((rtrimChars cs).map lowerChar) = true := by
  intro cs
  induction cs with
  | nil => intro t _ h; simpa using h
  | cons c cs ih =>
    intro t hl h
    cases t with
    | nil => simp [isPre]
    | cons t0 ts =>
      have hPre := h
      rw [List.map_cons] at h
      simp only [isPre, Bool.and_eq_true, decide_eq_true_eq] at h
      obtain ⟨ht0, hrest⟩ := h
      unfold rtrimChars
      by_cases hc : ((rtrimChars cs).isEmpty && pySpace c) = true
      · exfalso
        obtain ⟨hemp, hsp⟩ := Bool.and_eq_true_iff.mp hc
        have hallcs : ∀ x ∈ cs, pySpace x = true := rtrim_nil cs (List.isEmpty_iff.mp hemp)
        have hallmap : ∀ x ∈ (c :: cs).map lowerChar, pySpace x = true := by
          intro x hx
          rcases List.mem_map.mp hx with ⟨y, hy, rfl⟩
          rcases List.mem_cons.mp hy with hy | hy
          · exact pySpace_lowerChar y (hy ▸ hsp)
          · exact pySpace_lowerChar y (hallcs y hy)
        have hne : (t0 :: ts) ≠ ([] : List Char) := by simp
        have hlastmem : (t0 :: ts).getLast hne ∈ t0 :: ts := List.getLast_mem hne
        have hlast := hl _ (List.getLast?_eq_getLast _ hne)
        have := hallmap _ (isPre_mem _ _ hPre _ hlastmem)
        rw [hlast] at this
        cases this
      · rw [if_neg hc, List.map_cons]
        have hl' : ∀ x, ts.getLast? = some x → pySpace x = false := by
          intro x hx
          apply hl
          cases ts with
          | nil => cases hx
          | cons b l => rw [List.getLast?_cons_cons]; exact hx
        simp only [isPre, Bool.and_eq_true, decide_eq_true_eq]
        exact ⟨ht0, ih ts hl' hrest⟩

/-- The anchor test of the source implies the anchor notion of the spec:
a line that already starts (case-folded, untrimmed) with "num peaks" still
does so after stripping, since its first character is not whitespace. -/
lemma anchor_mono (l : String) (h : codeAnchor l = true) : specAnchor l = true := by
  unfold codeAnchor pyStartswith pyLower at h
  unfold specAnchor pyStartswith pyLower pyStrip
  show isPre ("num peaks".data) (((rtrimChars l.data).dropWhile pySpace).map lowerChar) = true
  have hT : ("num peaks".data) = ['n', 'u', 'm', ' ', 'p', 'e', 'a', 'k', 's'] := by decide
  rw [hT] at h ⊢
  have hlast : ∀ x, (['n', 'u', 'm', ' ', 'p', 'e', 'a', 'k', 's'] : List Char).getLast? = some x →
      pySpace x = false := by
    intro x hx
    have he : (['n', 'u', 'm', ' ', 'p', 'e', 'a', 'k', 's'] : List Char).getLast? = some 's' := by
      decide
    rw [he] at hx
    injection hx with hx
    rw [← hx]
    decide
  have h2 := mono_rtrim l.data _ hlast h
  cases hd : rtrimChars l.data with
  | nil =>
    rw [hd] at h2
    simp [isPre] at h2
  | cons d ds =>
    rw [hd] at h2
    have hdns : pySpace d = false := by
      cases hsp : pySpace d with
      | false => rfl
      | true =>
        exfalso
        rw [List.map_cons] at h2
        simp only [isPre, Bool.and_eq_true, decide_eq_true_eq] at h2
        obtain ⟨hn, _⟩ := h2
        have hws := pySpace_lowerChar d hsp
        rw [← hn] at hws
        cases hws
    rw [List.dropWhile_cons, if_neg (by simp [hdns])]
    exact h2

/-! ## Helper lemmas about the annotator and the flush step -/

lemma insertCounts_id (pm pat : String) :
    ∀ (b : List String), (∀ l ∈ b, codeAnchor l = false) → insertCounts pm pat b = b := by
  intro b
  induction b with
  | nil => intro _; rfl
  | cons l ls ih =>
    intro h
    simp only [insertCounts]
    rw [if_neg (by simp [h l (List.mem_cons_self l ls)]),
      ih (fun x hx => h x (List.mem_cons_of_mem l hx))]

lemma insertCounts_split (pm pat : String) :
    ∀ (b₁ : List String) (a : String) (b₂ : List String),
      (∀ l ∈ b₁, codeAnchor l = false) → codeAnchor a = true →
      insertCounts pm pat (b₁ ++ a :: b₂) = b₁ ++ pm :: pat :: a :: b₂ := by
  intro b₁
  induction b₁ with
  | nil =>
    intro a b₂ _ ha
    simp only [List.nil_append, insertCounts]
    rw [if_pos ha]
  | cons l ls ih =>
    intro a b₂ h ha
    simp only [List.cons_append, insertCounts]
    rw [if_neg (by simp [h l (List.mem_cons_self l ls)])]
    exact congrArg (List.cons l) (ih a b₂ (fun x hx => h x (List.mem_cons_of_mem l hx)) ha)

lemma applyHeader_frame (st : LoopState) (l : String) :
    (applyHeader st l).out = st.out ∧ (applyHeader st l).stats = st.stats ∧
    (applyHeader st l).block = st.block := by
  unfold applyHeader
  split
  · exact ⟨rfl, rfl, rfl⟩
  · split <;> exact ⟨rfl, rfl, rfl⟩

lemma bump_frame (s : Stats) (hi hs : Bool) :
    (bumpBuckets s hi hs).total_spectra = s.total_spectra ∧
    (bumpBuckets s hi hs).matched_by_inchikey = s.matched_by_inchikey ∧
    (bumpBuckets s hi hs).matched_by_smiles = s.matched_by_smiles ∧
    (bumpBuckets s hi hs).total_matched = s.total_matched ∧
    (bumpBuckets s hi hs).pubmed_counts = s.pubmed_counts ∧
    (bumpBuckets s hi hs).patent_counts = s.patent_counts := by
  cases hi <;> cases hs <;> simp [bumpBuckets]

/-- Sum of the four identifier-presence buckets. -/
def bsum (s : Stats) : Nat :=
  s.spectra_with_both + s.spectra_with_inchikey + s.spectra_with_smiles + s.spectra_with_neither

lemma bump_bsum (s : Stats) (hi hs : Bool) :
    bsum (bumpBuckets s hi hs) = bsum s + 1 := by
  cases hi <;> cases hs <;> simp [bumpBuckets, bsum] <;> omega

/-- A flush on a record whose identifiers matched some reference rows, with
both count columns present: the full resulting loop state. -/
lemma recordFlush_matched (t : PubChemTable) (st : LoopState) (rows : List Row) (m : Method)
    (hm : matchRecord t st.inchi st.smiles = Except.ok (some rows, m))
    (hpc : t.cols.contains "PubMed_Count" = true)
    (hpt : t.cols.contains "Patent_Count" = true) :
    recordFlush t st = Except.ok
      { block := [], inchi := none, smiles := none,
        stats :=
          (fun (s3 : Stats) =>
            { s3 with total_matched := s3.total_matched + 1,
                      pubmed_counts := s3.pubmed_counts ++ [rows.map (fun r => r.pubMedCount)],
                      patent_counts := s3.patent_counts ++ [rows.map (fun r => r.patentCount)] })
          (match m with
            | Method.primary =>
              (fun (s2 : Stats) => { s2 with matched_by_inchikey := s2.matched_by_inchikey + 1 })
                (bumpBuckets { st.stats with total_spectra := st.stats.total_spectra + 1 }
                  (truthy st.inchi) (truthy st.smiles))
            | Method.secondary =>
              (fun (s2 : Stats) => { s2 with matched_by_smiles := s2.matched_by_smiles + 1 })
                (bumpBuckets { st.stats with total_spectra := st.stats.total_spectra + 1 }
                  (truthy st.inchi) (truthy st.smiles))
            | Method.unmatched =>
              bumpBuckets { st.stats with total_spectra := st.stats.total_spectra + 1 }
                (truthy st.inchi) (truthy st.smiles)),
        out := st.out ++ insertCounts (pmLine (rows.map (fun r => r.pubMedCount)))
                 (patLine (rows.map (fun r => r.patentCount))) st.block } := by
  simp only [recordFlush, hm, getCol, hpc, hpt, if_true]
  cases m <;> rfl

/-- Every successful flush counts exactly one record into the bucket sum
and into the spectrum total. -/
lemma flush_delta (t : PubChemTable) (st st' : LoopState)
    (h : recordFlush t st = Except.ok st') :
    bsum st'.stats = bsum st.stats + 1 ∧
    st'.stats.total_spectra = st.stats.total_spectra + 1 := by
  cases hm : matchRecord t st.inchi st.smiles with
  | error e =>
    simp only [recordFlush, hm] at h
    exact Except.noConfusion h
  | ok pr =>
    obtain ⟨rowOpt, m⟩ := pr
    simp only [recordFlush, hm] at h
    have hb := bump_bsum { st.stats with total_spectra := st.stats.total_spectra + 1 }
      (truthy st.inchi) (truthy st.smiles)
    have hf := (bump_frame { st.stats with total_spectra := st.stats.total_spectra + 1 }
      (truthy st.inchi) (truthy st.smiles)).1
    cases rowOpt with
    | none =>
      have he := Except.ok.inj h
      subst he
      cases m <;> simp_all [bsum]
    | some rows =>
      by_cases hpc : t.cols.contains "PubMed_Count" = true
      · by_cases hpt : t.cols.contains "Patent_Count" = true
        · simp only [getCol, hpc, hpt, if_pos] at h
          have he := Except.ok.inj h
          subst he
          cases m <;> simp_all [bsum]
        · simp only [getCol, hpc, if_pos, if_neg hpt] at h
          exact Except.noConfusion h
      · simp only [getCol, if_neg hpc] at h
        exact Except.noConfusion h

/-! ## Helper lemmas about the line loop -/

lemma step_nonblank (t : PubChemTable) (st : LoopState) (l : String) (hb : ¬ pyStrip l = "") :
    stepLine t st l = Except.ok (applyHeader { st with block := st.block ++ [l] } l) := by
  unfold stepLine
  rw [if_neg hb]

lemma fold_nonblank (t : PubChemTable) :
    ∀ (extra : List String), (∀ l ∈ extra, ¬ pyStrip l = "") →
      ∀ (st : LoopState), ∃ st1, List.foldlM (stepLine t) st extra = Except.ok st1 ∧
        st1.out = st.out ∧ st1.stats = st.stats := by
  intro extra
  induction extra with
  | nil => intro _ st; exact ⟨st, rfl, rfl, rfl⟩
  | cons l ls ih =>
    intro h st
    obtain ⟨st1, h1, ho, hs⟩ := ih (fun x hx => h x (List.mem_cons_of_mem l hx))
      (applyHeader { st with block := st.block ++ [l] } l)
    refine ⟨st1, ?_, ?_, ?_⟩
    · rw [List.foldlM_cons, step_nonblank t st l (h l (List.mem_cons_self l ls))]
      exact h1
    · exact ho.trans (applyHeader_frame { st with block := st.block ++ [l] } l).1
    · exact hs.trans (applyHeader_frame { st with block := st.block ++ [l] } l).2.1

lemma step_inv (t : PubChemTable) (st : LoopState) (l : String) (st' : LoopState)
    (h : stepLine t st l = Except.ok st')
    (hinv : bsum st.stats = st.stats.total_spectra) :
    bsum st'.stats = st'.stats.total_spectra := by
  have He : (applyHeader { st with block := st.block ++ [l] } l).stats = st.stats :=
    (applyHeader_frame _ _).2.1
  unfold stepLine at h
  by_cases hb : pyStrip l = ""
  · rw [if_pos hb] at h
    obtain ⟨d1, d2⟩ := flush_delta t _ _ h
    rw [He] at d1 d2
    omega
  · rw [if_neg hb] at h
    have he := Except.ok.inj h
    subst he
    rw [He]
    exact hinv

lemma fold_inv (t : PubChemTable) :
    ∀ (ls : List String) (st fin : LoopState),
      List.foldlM (stepLine t) st ls = Except.ok fin →
      bsum st.stats = st.stats.total_spectra →
      bsum fin.stats = fin.stats.total_spectra := by
  intro ls
  induction ls with
  | nil =>
    intro st fin h hinv
    have he : st = fin := Except.ok.inj h
    exact he ▸ hinv
  | cons l ls ih =>
    intro st fin h hinv
    rw [List.foldlM_cons] at h
    cases hs : stepLine t st l with
    | error e =>
      rw [hs] at h
      exact Except.noConfusion h
    | ok st1 =>
      rw [hs] at h
      exact ih st1 fin h (step_inv t st l st1 hs hinv)

/-- A spec-anchor-free block is also free of source anchors. -/
lemma no_spec_anchor_no_code_anchor (block : List String)
    (h : ∀ l ∈ block, specAnchor l = false) : ∀ l ∈ block, codeAnchor l = false := by
  intro l hl
  cases hc : codeAnchor l with
  | false => rfl
  | true =>
    have h1 := anchor_mono l hc
    rw [h l hl] at h1
    exact Bool.noConfusion h1

/-! ## Concrete data for the claim instances -/

/-- The reference row of the end-to-end example in spec section 8. -/
def demoRow : Row := ⟨"ABCDEFGHIJKLMN", "CCO", 12, 3⟩

/-- A wellformed one-row reference table with all four required columns. -/
def demoTable : PubChemTable :=
  ⟨["FirstBlock", "SMILES", "PubMed_Count", "Patent_Count"], [demoRow]⟩

/-! ## Claim C1: identifier-header recognition -/

/-- C1 counterexample: the lines "inchikey: ABC" and "smiles: CCO" have
trimmed forms that start case-insensitively with the claimed headers, yet
the reader leaves both identifier fields unset, because the source checks
the exact prefixes Inchikey: / InChIKey: / Smiles: on the raw line. -/
theorem C1_counterexample :
    pyStartswith (pyLower (pyStrip "inchikey: ABC\n")) "inchikey:" = true ∧
    pyStartswith (pyLower (pyStrip "smiles: CCO\n")) "smiles:" = true ∧
    applyHeader initLoop "inchikey: ABC\n" = initLoop ∧
    applyHeader initLoop "smiles: CCO\n" = initLoop :=
  ⟨rfl, rfl, rfl, rfl⟩

/-- C1 (amended): the reader recognizes identifier headers by exact,
case-sensitive prefix match on the raw (untrimmed) line: a line starting
with "Inchikey:" or "InChIKey:" sets the primary identifier to the text
after the first colon, trimmed; otherwise a line starting with "Smiles:"
sets the secondary identifier likewise; any other line leaves both
fields unchanged. -/
theorem C1_header_rules (st : LoopState) (line : String) :
    ((pyStartswith line "Inchikey:" || pyStartswith line "InChIKey:") = true →
      applyHeader st line = { st with inchi := some (pyStrip (afterFirstColon line)) })
  ∧ ((pyStartswith line "Inchikey:" || pyStartswith line "InChIKey:") = false →
      pyStartswith line "Smiles:" = true →
      applyHeader st line = { st with smiles := some (pyStrip (afterFirstColon line)) })
  ∧ ((pyStartswith line "Inchikey:" || pyStartswith line "InChIKey:") = false →
      pyStartswith line "Smiles:" = false →
      applyHeader st line = st) := by
  refine ⟨?_, ?_, ?_⟩
  · intro h
    unfold applyHeader
    rw [if_pos h]
  · intro h1 h2
    unfold applyHeader
    rw [if_neg (by simp [h1]), if_pos h2]
  · intro h1 h2
    unfold applyHeader
    rw [if_neg (by simp [h1]), if_neg (by simp [h2])]

theorem C1_header_rules_witness :
    applyHeader initLoop "InChIKey: ABCDEFGHIJKLMN\n" =
      { initLoop with inchi := some (pyStrip (afterFirstColon "InChIKey: ABCDEFGHIJKLMN\n")) } :=
  (C1_header_rules initLoop "InChIKey: ABCDEFGHIJKLMN\n").1 rfl

/-! ## Claim C2: strict matching priority -/

/-- C2: the matching policy in strict priority order. A record with a
non-empty (truthy) primary identifier present in the index matches
primary; otherwise a record with a non-empty secondary identifier whose
scan finds a row matches secondary — in particular a record carrying both
identifiers whose primary identifier is absent from the index falls
through to the secondary scan; otherwise the method is none. The last
conjunct fixes the scan as first-match in reference-dataset order. -/
theorem C2_match_priority (t : PubChemTable) (inchi smilesV : Option String)
    (hS : t.cols.contains "SMILES" = true) :
    (truthy inchi = true → ¬ lookup_primary t (sval inchi) = [] →
      matchRecord t inchi smilesV =
        Except.ok (some (lookup_primary t (sval inchi)), Method.primary))
  ∧ ((truthy inchi = false ∨ lookup_primary t (sval inchi) = []) →
      truthy smilesV = true →
      ∀ r, scan_secondary t (sval smilesV) = some r →
        matchRecord t inchi smilesV = Except.ok (some [r], Method.secondary))
  ∧ ((truthy inchi = false ∨ lookup_primary t (sval inchi) = []) →
      (truthy smilesV = false ∨ scan_secondary t (sval smilesV) = none) →
      matchRecord t inchi smilesV = Except.ok (none, Method.unmatched))
  ∧ (∀ (v : String) (pre : List Row) (r : Row) (post : List Row),
      t.rows = pre ++ r :: post → (∀ x ∈ pre, ¬ x.smiles = v) → r.smiles = v →
      scan_secondary t v = some r) := by
  have hS' : "SMILES" ∈ t.cols := by simpa using hS
  refine ⟨?_, ?_, ?_, ?_⟩
  · intro h1 h2
    have hc : (truthy inchi && !(lookup_primary t (sval inchi)).isEmpty) = true := by
      simp [h1, List.isEmpty_iff, h2]
    simp [matchRecord, hc]
  · intro hor hsm r hr
    have hc : (truthy inchi && !(lookup_primary t (sval inchi)).isEmpty) = false := by
      rcases hor with h | h <;> simp [h]
    simp [matchRecord, hc, hsm, hS', hr]
  · intro hor hor2
    have hc : (truthy inchi && !(lookup_primary t (sval inchi)).isEmpty) = false := by
      rcases hor with h | h <;> simp [h]
    rcases hor2 with h | h
    · simp [matchRecord, hc, h]
    · simp [matchRecord, hc, hS', h]
  · intro v pre r post ht hpre hr
    unfold scan_secondary
    rw [ht, List.filter_append]
    have h1 : List.filter (fun x => decide (x.smiles = v)) pre = [] :=
      List.filter_eq_nil_iff.mpr (by intro a ha; simp [hpre a ha])
    rw [h1, List.nil_append, List.filter_cons, if_pos (by simp [hr])]
    rfl

theorem C2_match_priority_witness :
    matchRecord demoTable (some "ZZZ") (some "CCO") =
      Except.ok (some [demoRow], Method.secondary) :=
  (C2_match_priority demoTable (some "ZZZ") (some "CCO") rfl).2.1
    (Or.inr rfl) rfl demoRow rfl

/-! ## Claim C3: annotation placement -/

def c3lines : List String := ["InChIKey:ABCDEFGHIJKLMN\n", " Num Peaks: 1\n", "\n"]

/-- C3 counterexample: a matched record containing a line whose trimmed,
case-folded form starts with "num peaks" (one leading space) is written
unchanged — no annotation lines are inserted — because the source tests
the lower-cased line without stripping it. -/
theorem C3_counterexample :
    specAnchor " Num Peaks: 1\n" = true ∧
    match_pubchem_data demoTable c3lines =
      Except.ok (⟨1, 1, 0, 1, 1, 0, 0, 0, [[12]], [[3]]⟩, c3lines) :=
  ⟨rfl, rfl⟩

/-- C3 (amended): for a matched record (unique matched row), the annotator
inserts exactly the two lines PubMed_Count then Patent_Count immediately
before the first line whose case-folded (untrimmed) form starts with
"num peaks", and alters no other line of the record. -/
theorem C3_annotator_insertion (t : PubChemTable) (st st' : LoopState) (r : Row) (m : Method)
    (b₁ b₂ : List String) (a : String)
    (hm : matchRecord t st.inchi st.smiles = Except.ok (some [r], m))
    (hpc : t.cols.contains "PubMed_Count" = true)
    (hpt : t.cols.contains "Patent_Count" = true)
    (hblock : st.block = b₁ ++ a :: b₂)
    (ha : codeAnchor a = true)
    (hb : ∀ l ∈ b₁, codeAnchor l = false)
    (hrun : recordFlush t st = Except.ok st') :
    st'.out = st.out ++ b₁ ++
      ("PubMed_Count: " ++ toString r.pubMedCount ++ "\n") ::
      ("Patent_Count: " ++ toString r.patentCount ++ "\n") :: a :: b₂ := by
  rw [recordFlush_matched t st [r] m hm hpc hpt] at hrun
  have he := Except.ok.inj hrun
  rw [← he]
  show st.out ++ insertCounts (pmLine ([r].map (fun x => x.pubMedCount)))
      (patLine ([r].map (fun x => x.patentCount))) st.block = _
  rw [hblock, insertCounts_split _ _ b₁ a b₂ hb ha]
  simp [pmLine, patLine, countRepr]

def st3 : LoopState :=
  ⟨["InChIKey:ABCDEFGHIJKLMN\n", "Num Peaks: 2\n", "\n"],
   some "ABCDEFGHIJKLMN", none, zeroStats, []⟩

def st3v : LoopState :=
  ⟨[], none, none, ⟨1, 1, 0, 1, 1, 0, 0, 0, [[12]], [[3]]⟩,
   ["InChIKey:ABCDEFGHIJKLMN\n", "PubMed_Count: 12\n", "Patent_Count: 3\n",
    "Num Peaks: 2\n", "\n"]⟩

theorem C3_annotator_insertion_witness :
    st3v.out = st3.out ++ ["InChIKey:ABCDEFGHIJKLMN\n"] ++
      ("PubMed_Count: " ++ toString demoRow.pubMedCount ++ "\n") ::
      ("Patent_Count: " ++ toString demoRow.patentCount ++ "\n") ::
      "Num Peaks: 2\n" :: ["\n"] :=
  C3_annotator_insertion demoTable st3 st3v demoRow Method.primary
    ["InChIKey:ABCDEFGHIJKLMN\n"] ["\n"] "Num Peaks: 2\n"
    rfl rfl rfl rfl rfl (by decide) rfl

/-! ## Claim C4: division by zero on an empty input -/

/-- C4: on an empty input stream the loop succeeds with zero records and
an empty output, and the report stage then raises ZeroDivisionError at the
percent-matched figure, dividing by the zero record total. -/
theorem C4_report_zero_division :
    match_pubchem_data demoTable [] = Except.ok (zeroStats, []) ∧
    reportPct zeroStats = Except.error PyErr.zeroDivisionError :=
  ⟨rfl, rfl⟩

/-! ## Claim C5: duplicate primary identifiers -/

def r5a : Row := ⟨"K", "A", 1, 2⟩

def r5b : Row := ⟨"K", "B", 3, 4⟩

def t5 : PubChemTable := ⟨["FirstBlock", "SMILES", "PubMed_Count", "Patent_Count"], [r5a, r5b]⟩

/-- C5 counterexample: with two rows sharing the primary identifier "K",
the primary lookup returns both rows in dataset order, not just the later
one — pandas set_index keeps duplicate keys, so there is no last-wins
overwrite. -/
theorem C5_counterexample :
    lookup_primary t5 "K" = [r5a, r5b] ∧ ¬ lookup_primary t5 "K" = [r5b] :=
  ⟨rfl, by decide⟩

/-- C5 (amended): when two rows share a primary identifier, both remain in
the index: a primary lookup of that identifier returns a multi-row result
containing both rows (at least two rows), and both rows also stay visible
to the secondary scan (a scan for either row's secondary identifier finds
an entry). -/
theorem C5_duplicate_keys (cols : List String) (pre mid post : List Row) (r₁ r₂ : Row)
    (k : String) (h₁ : r₁.firstBlock = k) (h₂ : r₂.firstBlock = k) :
    r₁ ∈ lookup_primary ⟨cols, pre ++ r₁ :: mid ++ r₂ :: post⟩ k ∧
    r₂ ∈ lookup_primary ⟨cols, pre ++ r₁ :: mid ++ r₂ :: post⟩ k ∧
    2 ≤ (lookup_primary ⟨cols, pre ++ r₁ :: mid ++ r₂ :: post⟩ k).length ∧
    (scan_secondary ⟨cols, pre ++ r₁ :: mid ++ r₂ :: post⟩ r₁.smiles).isSome = true ∧
    (scan_secondary ⟨cols, pre ++ r₁ :: mid ++ r₂ :: post⟩ r₂.smiles).isSome = true := by
  have hscan : ∀ (r : Row), r ∈ pre ++ r₁ :: mid ++ r₂ :: post →
      (scan_secondary ⟨cols, pre ++ r₁ :: mid ++ r₂ :: post⟩ r.smiles).isSome = true := by
    intro r hmem
    have hmf : r ∈ List.filter (fun x => decide (x.smiles = r.smiles))
        (pre ++ r₁ :: mid ++ r₂ :: post) := List.mem_filter.mpr ⟨hmem, by simp⟩
    unfold scan_secondary
    cases hf : List.filter (fun x => decide (x.smiles = r.smiles))
        (pre ++ r₁ :: mid ++ r₂ :: post) with
    | nil => rw [hf] at hmf; cases hmf
    | cons x xs => rfl
  refine ⟨?_, ?_, ?_, ?_, ?_⟩
  · exact List.mem_filter.mpr ⟨by simp, by simpa using h₁⟩
  · exact List.mem_filter.mpr ⟨by simp, by simpa using h₂⟩
  · simp [lookup_primary, h₁, h₂, List.length_append]
    omega
  · exact hscan r₁ (by simp)
  · exact hscan r₂ (by simp)

theorem C5_duplicate_keys_witness :
    r5a ∈ lookup_primary ⟨t5.cols, [] ++ r5a :: [] ++ r5b :: []⟩ "K" ∧
    r5b ∈ lookup_primary ⟨t5.cols, [] ++ r5a :: [] ++ r5b :: []⟩ "K" ∧
    2 ≤ (lookup_primary ⟨t5.cols, [] ++ r5a :: [] ++ r5b :: []⟩ "K").length ∧
    (scan_secondary ⟨t5.cols, [] ++ r5a :: [] ++ r5b :: []⟩ r5a.smiles).isSome = true ∧
    (scan_secondary ⟨t5.cols, [] ++ r5a :: [] ++ r5b :: []⟩ r5b.smiles).isSome = true :=
  C5_duplicate_keys t5.cols [] [] [] r5a r5b "K" rfl rfl

/-! ## Claim C6: identifier-presence buckets -/

/-- C6: every record increments exactly one identifier-presence bucket,
with both-present taking precedence (the bucket update is the identity on
every other stats field), and over any successful run the four bucket
counters sum to the total of records processed. -/
theorem C6_bucket_exclusive_sum :
    (∀ (s : Stats) (hi hs : Bool),
        (hi = true → hs = true →
          bumpBuckets s hi hs = { s with spectra_with_both := s.spectra_with_both + 1 }) ∧
        (hi = true → hs = false →
          bumpBuckets s hi hs =
            { s with spectra_with_inchikey := s.spectra_with_inchikey + 1 }) ∧
        (hi = false → hs = true →
          bumpBuckets s hi hs = { s with spectra_with_smiles := s.spectra_with_smiles + 1 }) ∧
        (hi = false → hs = false →
          bumpBuckets s hi hs =
            { s with spectra_with_neither := s.spectra_with_neither + 1 }))
  ∧ (∀ (t : PubChemTable) (lines : List String) (s : Stats) (out : List String),
      match_pubchem_data t lines = Except.ok (s, out) →
      s.spectra_with_both + s.spectra_with_inchikey + s.spectra_with_smiles +
        s.spectra_with_neither = s.total_spectra) := by
  constructor
  · intro s hi hs
    refine ⟨?_, ?_, ?_, ?_⟩ <;> (intro h1 h2; subst h1; subst h2; simp [bumpBuckets])
  · intro t lines s out h
    unfold match_pubchem_data at h
    by_cases hf : t.cols.contains "FirstBlock" = true
    · rw [if_pos hf] at h
      cases hr : List.foldlM (stepLine t) initLoop lines with
      | error e => rw [hr] at h; exact Except.noConfusion h
      | ok fin =>
        rw [hr] at h
        have he := Except.ok.inj h
        have hsf : fin.stats = s := congrArg Prod.fst he
        have hinv := fold_inv t lines initLoop fin hr rfl
        rw [← hsf]
        exact hinv
    · rw [if_neg hf] at h
      exact Except.noConfusion h

theorem C6_bucket_exclusive_sum_witness :
    bumpBuckets zeroStats true true =
      { zeroStats with spectra_with_both := zeroStats.spectra_with_both + 1 } ∧
    ((⟨1, 0, 0, 0, 0, 0, 0, 1, [], []⟩ : Stats).spectra_with_both +
      (⟨1, 0, 0, 0, 0, 0, 0, 1, [], []⟩ : Stats).spectra_with_inchikey +
      (⟨1, 0, 0, 0, 0, 0, 0, 1, [], []⟩ : Stats).spectra_with_smiles +
      (⟨1, 0, 0, 0, 0, 0, 0, 1, [], []⟩ : Stats).spectra_with_neither =
      (⟨1, 0, 0, 0, 0, 0, 0, 1, [], []⟩ : Stats).total_spectra) :=
  ⟨(C6_bucket_exclusive_sum.1 zeroStats true true).1 rfl rfl,
   C6_bucket_exclusive_sum.2 demoTable ["\n"] ⟨1, 0, 0, 0, 0, 0, 0, 1, [], []⟩ ["\n"] rfl⟩

/-! ## Claim C7: schema validation timing -/

def t7 : PubChemTable := ⟨["FirstBlock"], [⟨"K", "CCO", 12, 3⟩]⟩

/-- C7 counterexample: a reference table missing the secondary-identifier
column and both count columns is accepted without any error, and a whole
record is processed — so index building does not fail up front for those
columns. -/
theorem C7_counterexample :
    t7.cols.contains "SMILES" = false ∧
    t7.cols.contains "PubMed_Count" = false ∧
    t7.cols.contains "Patent_Count" = false ∧
    match_pubchem_data t7 ["Name: X\n", "\n"] =
      Except.ok (⟨1, 0, 0, 0, 0, 0, 0, 1, [], []⟩, ["Name: X\n", "\n"]) :=
  ⟨rfl, rfl, rfl, rfl⟩

/-- C7 (amended): only the primary-identifier column is validated before
the input is read: a table without FirstBlock makes the run fail with the
KeyError for it regardless of the input, hence before any record is
processed. A missing secondary-identifier column raises only when some
record actually attempts a secondary scan during processing. -/
theorem C7_schema_errors :
    (∀ (t : PubChemTable) (lines : List String),
      t.cols.contains "FirstBlock" = false →
      match_pubchem_data t lines = Except.error (PyErr.keyError "FirstBlock"))
  ∧ (∀ (t : PubChemTable) (st : LoopState),
      t.cols.contains "SMILES" = false →
      (truthy st.inchi && !(lookup_primary t (sval st.inchi)).isEmpty) = false →
      truthy st.smiles = true →
      recordFlush t st = Except.error (PyErr.keyError "SMILES")) := by
  constructor
  · intro t lines hf
    unfold match_pubchem_data
    rw [if_neg (by simpa using hf)]
  · intro t st hS hp hsm
    have hm : matchRecord t st.inchi st.smiles = Except.error (PyErr.keyError "SMILES") := by
      unfold matchRecord
      rw [if_neg (by simp [hp]), if_pos hsm, if_neg (by simpa using hS)]
    simp only [recordFlush, hm]

theorem C7_schema_errors_witness :
    match_pubchem_data (⟨["X"], []⟩ : PubChemTable) [] =
      Except.error (PyErr.keyError "FirstBlock") ∧
    recordFlush t7 ⟨["Smiles:CCO\n", "\n"], none, some "CCO", zeroStats, []⟩ =
      Except.error (PyErr.keyError "SMILES") :=
  ⟨C7_schema_errors.1 ⟨["X"], []⟩ [] rfl,
   C7_schema_errors.2 t7 ⟨["Smiles:CCO\n", "\n"], none, some "CCO", zeroStats, []⟩ rfl rfl rfl⟩

/-! ## Claim C8: unterminated trailing block -/

/-- C8: trailing lines with no blank-line terminator contribute nothing:
appending any suffix of non-blank lines to the input leaves the run result
— the statistics and every line written to the output — unchanged, so the
pending block is neither emitted nor counted. -/
theorem C8_unterminated_block_dropped (t : PubChemTable) (lines extra : List String)
    (hx : ∀ l ∈ extra, ¬ pyStrip l = "") :
    match_pubchem_data t (lines ++ extra) = match_pubchem_data t lines := by
  unfold match_pubchem_data
  by_cases hf : t.cols.contains "FirstBlock" = true
  · rw [if_pos hf, if_pos hf, List.foldlM_append]
    cases hr : List.foldlM (stepLine t) initLoop lines with
    | error e => rfl
    | ok st =>
      obtain ⟨st1, h1, ho, hs⟩ := fold_nonblank t extra hx st
      have hb : (Except.ok st >>= fun s1 => List.foldlM (stepLine t) s1 extra) =
          List.foldlM (stepLine t) st extra := rfl
      rw [hb, h1]
      show Except.ok (st1.stats, st1.out) = Except.ok (st.stats, st.out)
      rw [ho, hs]
  · rw [if_neg hf, if_neg hf]

theorem C8_unterminated_block_dropped_witness :
    match_pubchem_data demoTable (["\n"] ++ ["Name: X\n", "Num Peaks: 1\n"]) =
      match_pubchem_data demoTable ["\n"] :=
  C8_unterminated_block_dropped demoTable ["\n"] ["Name: X\n", "Num Peaks: 1\n"] (by decide)

/-! ## Claim C9: matched record without an anchor line passes through -/

/-- C9: a matched record none of whose lines has a trimmed, case-folded
form starting with "num peaks" is written to the output exactly as read:
no annotation lines are inserted and every original line passes through
unchanged and in order. -/
theorem C9_missing_anchor_passthrough (t : PubChemTable) (st st' : LoopState)
    (rows : List Row) (m : Method)
    (hm : matchRecord t st.inchi st.smiles = Except.ok (some rows, m))
    (hanch : ∀ l ∈ st.block, specAnchor l = false)
    (hrun : recordFlush t st = Except.ok st') :
    st'.out = st.out ++ st.block := by
  have hca := no_spec_anchor_no_code_anchor st.block hanch
  by_cases hpc : t.cols.contains "PubMed_Count" = true
  · by_cases hpt : t.cols.contains "Patent_Count" = true
    · rw [recordFlush_matched t st rows m hm hpc hpt] at hrun
      have he := Except.ok.inj hrun
      rw [← he]
      show st.out ++ insertCounts _ _ st.block = st.out ++ st.block
      rw [insertCounts_id _ _ st.block hca]
    · have hx : recordFlush t st = Except.error (PyErr.keyError "Patent_Count") := by
        simp only [recordFlush, hm, getCol, hpc, if_true]
        rw [if_neg hpt]
      rw [hx] at hrun
      exact Except.noConfusion hrun
  · have hx : recordFlush t st = Except.error (PyErr.keyError "PubMed_Count") := by
      simp only [recordFlush, hm, getCol]
      rw [if_neg hpc]
    rw [hx] at hrun
    exact Except.noConfusion hrun

def st9 : LoopState :=
  ⟨["InChIKey:ABCDEFGHIJKLMN\n", "\n"], some "ABCDEFGHIJKLMN", none, zeroStats, []⟩

def st9v : LoopState :=
  ⟨[], none, none, ⟨1, 1, 0, 1, 1, 0, 0, 0, [[12]], [[3]]⟩,
   ["InChIKey:ABCDEFGHIJKLMN\n", "\n"]⟩

theorem C9_missing_anchor_passthrough_witness :
    st9v.out = st9.out ++ st9.block :=
  C9_missing_anchor_passthrough demoTable st9 st9v [demoRow] Method.primary
    rfl (by decide) rfl

/-! ## Claim C10: matched record without an anchor is still counted -/

/-- C10: a matched record with no anchor line still counts as matched: the
total-matched counter and the counter of its match method are incremented,
the matched counts are appended to both distribution sequences, and yet
the block is written without any annotation lines. -/
theorem C10_matched_without_anchor_counted (t : PubChemTable) (st st' : LoopState)
    (rows : List Row) (m : Method)
    (hm : matchRecord t st.inchi st.smiles = Except.ok (some rows, m))
    (hpc : t.cols.contains "PubMed_Count" = true)
    (hpt : t.cols.contains "Patent_Count" = true)
    (hanch : ∀ l ∈ st.block, specAnchor l = false)
    (hrun : recordFlush t st = Except.ok st') :
    st'.stats.total_matched = st.stats.total_matched + 1 ∧
    (m = Method.primary →
      st'.stats.matched_by_inchikey = st.stats.matched_by_inchikey + 1 ∧
      st'.stats.matched_by_smiles = st.stats.matched_by_smiles) ∧
    (m = Method.secondary →
      st'.stats.matched_by_smiles = st.stats.matched_by_smiles + 1 ∧
      st'.stats.matched_by_inchikey = st.stats.matched_by_inchikey) ∧
    st'.stats.pubmed_counts = st.stats.pubmed_counts ++ [rows.map (fun r => r.pubMedCount)] ∧
    st'.stats.patent_counts = st.stats.patent_counts ++ [rows.map (fun r => r.patentCount)] ∧
    st'.out = st.out ++ st.block := by
  have hca := no_spec_anchor_no_code_anchor st.block hanch
  obtain ⟨f1, f2, f3, f4, f5, f6⟩ := bump_frame
    { st.stats with total_spectra := st.stats.total_spectra + 1 }
    (truthy st.inchi) (truthy st.smiles)
  rw [recordFlush_matched t st rows m hm hpc hpt] at hrun
  have he := Except.ok.inj hrun
  rw [← he]
  cases m <;>
    refine ⟨?_, ?_, ?_, ?_, ?_, ?_⟩ <;>
    simp [insertCounts_id _ _ st.block hca, f2, f3, f4, f5, f6]

def st10 : LoopState := ⟨["Smiles:CCO\n", "\n"], none, some "CCO", zeroStats, []⟩

def st10v : LoopState :=
  ⟨[], none, none, ⟨1, 0, 1, 1, 0, 1, 0, 0, [[12]], [[3]]⟩, ["Smiles:CCO\n", "\n"]⟩

theorem C10_matched_without_anchor_counted_witness :
    st10v.stats.total_matched = st10.stats.total_matched + 1 ∧
    (Method.secondary = Method.primary →
      st10v.stats.matched_by_inchikey = st10.stats.matched_by_inchikey + 1 ∧
      st10v.stats.matched_by_smiles = st10.stats.matched_by_smiles) ∧
    (Method.secondary = Method.secondary →
      st10v.stats.matched_by_smiles = st10.stats.matched_by_smiles + 1 ∧
      st10v.stats.matched_by_inchikey = st10.stats.matched_by_inchikey) ∧
    st10v.stats.pubmed_counts =
      st10.stats.pubmed_counts ++ [[demoRow].map (fun r => r.pubMedCount)] ∧
    st10v.stats.patent_counts =
      st10.stats.patent_counts ++ [[demoRow].map (fun r => r.patentCount)] ∧
    st10v.out = st10.out ++ st10.block :=
  C10_matched_without_anchor_counted demoTable st10 st10v [demoRow] Method.secondary
    rfl rfl rfl (by decide) rfl

end PubChem
